import Mathlib

/-!
Verification of the stack-policy subsystem
(`packages/aws-cdk-lib/core/lib/stack-policy.ts`): the policy document
data model and the case-transforming serializer it feeds into
`capitalizePropertyNames`.

The document trees handed to the serializer are untyped JSON-like values
at runtime; we embed them as the inductive `Value` below.  The typed
statement/document schema of the source file is embedded as Lean
structures together with their runtime object representation
(`toValue`), exactly mirroring the field names and field types of the
TypeScript interfaces.
-/

namespace StackPolicyModel

/-- A runtime value tree as the serializer sees it: JSON scalars,
arrays, plain objects (ordered key/value fields, as produced by object
literals), the `undefined` sentinel for optional fields that were not
set (`absent`), and an opaque constructor (`other`) for values outside
the JSON-serializable set, such as unresolved tokens, which the
transform passes through untouched. -/
inductive Value where
  | str : String → Value
  | num : Int → Value
  | bool : Bool → Value
  | null : Value
  | absent : Value
  | other : String → Value
  | arr : List Value → Value
  | obj : List (String × Value) → Value
deriving Repr

/-- `Char.toUpper` written out with its branch condition exposed. -/
theorem char_toUpper_eq (c : Char) :
    c.toUpper = if 97 ≤ c.toNat ∧ c.toNat ≤ 122 then Char.ofNat (c.toNat - 32) else c := by
  rfl

/-- ASCII uppercasing is idempotent: uppercasing an already-uppercased
character changes nothing. -/
theorem char_toUpper_idem (c : Char) : c.toUpper.toUpper = c.toUpper := by
  rw [char_toUpper_eq c]
  by_cases h : 97 ≤ c.toNat ∧ c.toNat ≤ 122
  · rw [if_pos h]
    obtain ⟨h1, h2⟩ := h
    rw [char_toUpper_eq]
    generalize c.toNat = n at h1 h2 ⊢
    interval_cases n <;> decide
  · rw [if_neg h, char_toUpper_eq, if_neg h]

/-- Modelled from the spec: the key-casing rule of
`capitalizePropertyNames` (`core/lib/util`, not included under `src/`).
Per §4.2, a key is rewritten from lower-camel-case to upper-camel-case
by uppercasing its first character; the characters after interior word
boundaries of a camelCase key are already uppercase and are kept as
they are. -/
def capitalizeFirst (s : String) : String :=
  match s.data with
  | [] => s
  | c :: cs => String.mk (c.toUpper :: cs)

theorem capitalizeFirst_idem (s : String) :
    capitalizeFirst (capitalizeFirst s) = capitalizeFirst s := by
  unfold capitalizeFirst
  match s with
  | ⟨[]⟩ => rfl
  | ⟨c :: cs⟩ => simp [char_toUpper_idem]

mutual
/-- Modelled from the spec: `capitalizePropertyNames` from
`core/lib/util` is not included under `src/`; per §4.2 the transform
walks the tree depth-first, rewrites every plain-object key to
upper-camel-case while dropping keys whose value is the absent
sentinel, rebuilds arrays element-wise in order, and returns scalars
and any other value unchanged.  The owning-node argument of the source
function is used only for token resolution, which §6 treats as an
opaque external collaborator, so it does not appear here. -/
def capitalizePropertyNames : Value → Value
  | .obj kvs => .obj (capitalizeFields kvs)
  | .arr xs => .arr (capitalizeList xs)
  | v => v

/-- Transforms every element of an array, in order. -/
def capitalizeList : List Value → List Value
  | [] => []
  | x :: xs => capitalizePropertyNames x :: capitalizeList xs

/-- Transforms the fields of a plain object: absent-valued keys are
dropped, every other key is case-rewritten and its value transformed
recursively. -/
def capitalizeFields : List (String × Value) → List (String × Value)
  | [] => []
  | (_, .absent) :: rest => capitalizeFields rest
  | (k, v) :: rest => (capitalizeFirst k, capitalizePropertyNames v) :: capitalizeFields rest
end

/-! ## The typed policy document schema (stack-policy.ts lines 7-214) -/

/-- `export type Effect = 'Allow' | 'Deny'` (line 7).  The union of two
string literal types is a closed two-element enumeration; holding any
other string is not representable. -/
inductive Effect where
  | allow : Effect
  | deny : Effect
deriving Repr, DecidableEq

/-- The string literal an `Effect` member stands for. -/
def Effect.render : Effect → String
  | .allow => "Allow"
  | .deny => "Deny"

/-- `export type ActionValue = 'Update:Modify' | 'Update:Replace' |
'Update:Delete' | 'Update:*'` (line 12). -/
inductive ActionValue where
  | modify : ActionValue
  | replace : ActionValue
  | delete : ActionValue
  | star : ActionValue
deriving Repr, DecidableEq

/-- The string literal an `ActionValue` member stands for. -/
def ActionValue.render : ActionValue → String
  | .modify => "Update:Modify"
  | .replace => "Update:Replace"
  | .delete => "Update:Delete"
  | .star => "Update:*"

/-- `export type Action = ActionValue[] | ActionValue` (line 17). -/
inductive Action where
  | single : ActionValue → Action
  | list : List ActionValue → Action
deriving Repr, DecidableEq

/-- Runtime value of an `Action`: a bare string or an array of strings. -/
def Action.toValue : Action → Value
  | .single a => .str a.render
  | .list as => .arr (as.map fun a => .str a.render)

/-- `resource: string[] | string` (lines 81, 145): a single identifier
string or an ordered sequence of identifier strings, kept distinct. -/
inductive ResourceSpec where
  | single : String → ResourceSpec
  | list : List String → ResourceSpec
deriving Repr, DecidableEq

/-- Runtime value of a `resource` field. -/
def ResourceSpec.toValue : ResourceSpec → Value
  | .single s => .str s
  | .list ss => .arr (ss.map Value.str)

/-- `interface ConditionResourceType { resourceType: string[] }`
(lines 22-27). -/
structure ConditionResourceType where
  resourceType : List String
deriving Repr, DecidableEq

/-- Runtime value of a `ConditionResourceType`: an object with the one
camelCase key `resourceType` holding an array of strings. -/
def ConditionResourceType.toValue (c : ConditionResourceType) : Value :=
  .obj [("resourceType", .arr (c.resourceType.map Value.str))]

/-- `type Condition = StringEqualsCondition | StringLikeCondition`
(lines 32-52): exactly one of the `stringEquals` / `stringLike`
variants is active. -/
inductive Condition where
  | stringEquals : ConditionResourceType → Condition
  | stringLike : ConditionResourceType → Condition
deriving Repr, DecidableEq

/-- Runtime value of a `Condition`: an object with the single key of
the active variant. -/
def Condition.toValue : Condition → Value
  | .stringEquals c => .obj [("stringEquals", c.toValue)]
  | .stringLike c => .obj [("stringLike", c.toValue)]

/-- Runtime value of an optional `condition` field: the absent sentinel
when the optional field was not set. -/
def conditionValue : Option Condition → Value
  | none => .absent
  | some c => c.toValue

/-- `interface ActionResourceStatement` (lines 62-89): `effect`,
`action`, `principal` (fixed to the literal wildcard), `resource`, and
optional `condition`. -/
structure ActionResourceStatement where
  effect : Effect
  action : Action
  resource : ResourceSpec
  condition : Option Condition
deriving Repr, DecidableEq

/-- Runtime object of an `ActionResourceStatement`, with the camelCase
field names of the source interface. -/
def ActionResourceStatement.toValue (s : ActionResourceStatement) : Value :=
  .obj [("effect", .str s.effect.render),
        ("action", s.action.toValue),
        ("principal", .str "*"),
        ("resource", s.resource.toValue),
        ("condition", conditionValue s.condition)]

/-- `interface ActionNotResourceStatement` (lines 94-121): note that
`notResource` is declared `string` (line 113), a single identifier. -/
structure ActionNotResourceStatement where
  effect : Effect
  action : Action
  notResource : String
  condition : Option Condition
deriving Repr, DecidableEq

/-- Runtime object of an `ActionNotResourceStatement`. -/
def ActionNotResourceStatement.toValue (s : ActionNotResourceStatement) : Value :=
  .obj [("effect", .str s.effect.render),
        ("action", s.action.toValue),
        ("principal", .str "*"),
        ("notResource", .str s.notResource),
        ("condition", conditionValue s.condition)]

/-- `interface NotActionResourceStatement` (lines 126-153): `notAction`
is a single `ActionValue` (line 135). -/
structure NotActionResourceStatement where
  effect : Effect
  notAction : ActionValue
  resource : ResourceSpec
  condition : Option Condition
deriving Repr, DecidableEq

/-- Runtime object of a `NotActionResourceStatement`. -/
def NotActionResourceStatement.toValue (s : NotActionResourceStatement) : Value :=
  .obj [("effect", .str s.effect.render),
        ("notAction", .str s.notAction.render),
        ("principal", .str "*"),
        ("resource", s.resource.toValue),
        ("condition", conditionValue s.condition)]

/-- `interface NotActionNotResourceStatement` (lines 158-185):
`notResource` is declared `string` (line 177). -/
structure NotActionNotResourceStatement where
  effect : Effect
  notAction : ActionValue
  notResource : String
  condition : Option Condition
deriving Repr, DecidableEq

/-- Runtime object of a `NotActionNotResourceStatement`. -/
def NotActionNotResourceStatement.toValue (s : NotActionNotResourceStatement) : Value :=
  .obj [("effect", .str s.effect.render),
        ("notAction", .str s.notAction.render),
        ("principal", .str "*"),
        ("notResource", .str s.notResource),
        ("condition", conditionValue s.condition)]

/-- `type StackPolicyStatement` (lines 190-194): the union of the four
statement shapes. -/
inductive StackPolicyStatement where
  | actionResource : ActionResourceStatement → StackPolicyStatement
  | actionNotResource : ActionNotResourceStatement → StackPolicyStatement
  | notActionResource : NotActionResourceStatement → StackPolicyStatement
  | notActionNotResource : NotActionNotResourceStatement → StackPolicyStatement
deriving Repr, DecidableEq

/-- Runtime object of a statement, whichever variant it is. -/
def StackPolicyStatement.toValue : StackPolicyStatement → Value
  | .actionResource s => s.toValue
  | .actionNotResource s => s.toValue
  | .notActionResource s => s.toValue
  | .notActionNotResource s => s.toValue

/-- `interface StackPolicyDocument { statement: StackPolicyStatement[] }`
(lines 199-204). -/
structure StackPolicyDocument where
  statement : List StackPolicyStatement
deriving Repr, DecidableEq

/-- Runtime object of a document: the camelCase wrapper key `statement`
holding the ordered array of statement objects. -/
def StackPolicyDocument.toValue (d : StackPolicyDocument) : Value :=
  .obj [("statement", .arr (d.statement.map StackPolicyStatement.toValue))]

/-- `interface StackPolicyProps { document: StackPolicyDocument }`
(lines 209-214). -/
structure StackPolicyProps where
  document : StackPolicyDocument
deriving Repr, DecidableEq

/-- `class StackPolicy` (lines 221-238): holds the one public readonly
field `document`.  The construct-framework parentage (`scope`, `id`) is
identity bookkeeping outside this subsystem (spec §1) and carries no
state this subsystem reads. -/
structure StackPolicy where
  document : StackPolicyDocument
deriving Repr, DecidableEq

/-- The constructor body (lines 227-230): `this.document =
props.document` and nothing else — the supplied document is stored as
given, unvalidated and untransformed. -/
def StackPolicy.ofProps (props : StackPolicyProps) : StackPolicy :=
  { document := props.document }

/-- `_toCloudFormation()` (lines 235-237): `return
capitalizePropertyNames(this, this.document)`. -/
def StackPolicy.toCloudFormation (p : StackPolicy) : Value :=
  capitalizePropertyNames p.document.toValue

/-- The method `_toCloudFormation` as an explicit state transformer:
its body only reads `this.document` and writes no field, so the
post-state is the pre-state. -/
def StackPolicy.runToCloudFormation (p : StackPolicy) : Value × StackPolicy :=
  (capitalizePropertyNames p.document.toValue, p)

/-- Invoking `_toCloudFormation` `n` times in sequence, collecting in
order each invocation's return value and threading the node state. -/
def StackPolicy.runMany : Nat → StackPolicy → List Value × StackPolicy
  | 0, p => ([], p)
  | n + 1, p =>
    let r := p.runToCloudFormation
    let rest := StackPolicy.runMany n r.2
    (r.1 :: rest.1, rest.2)

/-! ## Field lookup and the shape predicates of the interface types

A TypeScript interface type is, at runtime, a shape predicate over
untyped values.  The predicates below are the membership tests of the
source file's types, read off field by field from the declarations;
they let us state which untyped trees the schema admits. -/

/-- Looks up the first binding of a key in an ordered field list. -/
def lookupField : List (String × Value) → String → Option Value
  | [], _ => none
  | (k, v) :: rest, key => if k = key then some v else lookupField rest key

/-- The field bound to `key` when the value is a plain object. -/
def getField (v : Value) (key : String) : Option Value :=
  match v with
  | .obj kvs => lookupField kvs key
  | _ => none

/-- Membership test of `Effect` (line 7): exactly the two literal
strings. -/
def isEffectString (s : String) : Bool :=
  s = "Allow" || s = "Deny"

/-- Membership test of `ActionValue` (line 12). -/
def isActionValueString (s : String) : Bool :=
  s = "Update:Modify" || s = "Update:Replace" || s = "Update:Delete" || s = "Update:*"

/-- Membership test of `Action` (line 17): one action string or an
array of action strings. -/
def isActionShape : Value → Bool
  | .str s => isActionValueString s
  | .arr xs => xs.all fun x => match x with
    | .str s => isActionValueString s
    | _ => false
  | _ => false

/-- Membership test of `string[] | string` (lines 81, 145). -/
def isStringOrStringArray : Value → Bool
  | .str _ => true
  | .arr xs => xs.all fun x => match x with
    | .str _ => true
    | _ => false
  | _ => false

/-- Membership test of `ConditionResourceType` (lines 22-27): an object
whose `resourceType` field is an array of strings. -/
def isConditionResourceTypeShape (v : Value) : Bool :=
  match getField v "resourceType" with
  | some (.arr xs) => xs.all fun x => match x with
    | .str _ => true
    | _ => false
  | _ => false

/-- Membership test of `Condition` (lines 32-52): exactly one of the
`stringEquals` / `stringLike` keys is present, holding a
`ConditionResourceType`. -/
def isConditionShape (v : Value) : Bool :=
  match getField v "stringEquals", getField v "stringLike" with
  | some c, none => isConditionResourceTypeShape c
  | none, some c => isConditionResourceTypeShape c
  | _, _ => false

/-- Membership test of the optional `condition` field: missing, or a
`Condition`. -/
def isOptionalConditionShape (v : Value) (key : String) : Bool :=
  match getField v key with
  | none => true
  | some .absent => true
  | some c => isConditionShape c

/-- Membership test of `ActionResourceStatement` (lines 62-89). -/
def isActionResourceStatementShape (v : Value) : Bool :=
  (match getField v "effect" with
    | some (.str s) => isEffectString s
    | _ => false) &&
  (match getField v "action" with
    | some a => isActionShape a
    | none => false) &&
  (match getField v "principal" with
    | some (.str "*") => true
    | _ => false) &&
  (match getField v "resource" with
    | some r => isStringOrStringArray r
    | none => false) &&
  isOptionalConditionShape v "condition"

/-- Membership test of `ActionNotResourceStatement` (lines 94-121):
`notResource` is declared `string` (line 113), so only a bare string is
admitted there. -/
def isActionNotResourceStatementShape (v : Value) : Bool :=
  (match getField v "effect" with
    | some (.str s) => isEffectString s
    | _ => false) &&
  (match getField v "action" with
    | some a => isActionShape a
    | none => false) &&
  (match getField v "principal" with
    | some (.str "*") => true
    | _ => false) &&
  (match getField v "notResource" with
    | some (.str _) => true
    | _ => false) &&
  isOptionalConditionShape v "condition"

/-- Membership test of `NotActionResourceStatement` (lines 126-153). -/
def isNotActionResourceStatementShape (v : Value) : Bool :=
  (match getField v "effect" with
    | some (.str s) => isEffectString s
    | _ => false) &&
  (match getField v "notAction" with
    | some (.str s) => isActionValueString s
    | _ => false) &&
  (match getField v "principal" with
    | some (.str "*") => true
    | _ => false) &&
  (match getField v "resource" with
    | some r => isStringOrStringArray r
    | none => false) &&
  isOptionalConditionShape v "condition"

/-- Membership test of `NotActionNotResourceStatement` (lines 158-185):
`notResource` is declared `string` (line 177). -/
def isNotActionNotResourceStatementShape (v : Value) : Bool :=
  (match getField v "effect" with
    | some (.str s) => isEffectString s
    | _ => false) &&
  (match getField v "notAction" with
    | some (.str s) => isActionValueString s
    | _ => false) &&
  (match getField v "principal" with
    | some (.str "*") => true
    | _ => false) &&
  (match getField v "notResource" with
    | some (.str _) => true
    | _ => false) &&
  isOptionalConditionShape v "condition"

/-- Membership test of the union `StackPolicyStatement` (lines
190-194). -/
def isStackPolicyStatementShape (v : Value) : Bool :=
  isActionNotResourceStatementShape v ||
  isActionResourceStatementShape v ||
  isNotActionNotResourceStatementShape v ||
  isNotActionResourceStatementShape v

/-- Membership test of `StackPolicyDocument` (lines 199-204): an object
whose `statement` field is an array of statements. -/
def isStackPolicyDocumentShape (v : Value) : Bool :=
  match getField v "statement" with
  | some (.arr xs) => xs.all isStackPolicyStatementShape
  | _ => false

/-! ## The specification relation of the transform

`Transformed v w` states, following the spec's own words (§4.2), that
`w` is the serialized form of `v`: every object key at every depth
rewritten to upper-camel-case, absent-valued keys dropped, arrays
rebuilt element-wise in order, scalars and opaque values unchanged. -/

mutual
/-- The spec's description of the case-transforming serializer, as a
relation between input and output trees. -/
inductive Transformed : Value → Value → Prop where
  | str (s : String) : Transformed (.str s) (.str s)
  | num (n : Int) : Transformed (.num n) (.num n)
  | bool (b : Bool) : Transformed (.bool b) (.bool b)
  | null : Transformed .null .null
  | absent : Transformed .absent .absent
  | other (t : String) : Transformed (.other t) (.other t)
  | arr {xs ys : List Value} : TransformedList xs ys →
      Transformed (.arr xs) (.arr ys)
  | obj {kvs kvs' : List (String × Value)} : TransformedFields kvs kvs' →
      Transformed (.obj kvs) (.obj kvs')

/-- Element-wise transformation of an array, preserving order and
length. -/
inductive TransformedList : List Value → List Value → Prop where
  | nil : TransformedList [] []
  | cons {v w : Value} {vs ws : List Value} : Transformed v w →
      TransformedList vs ws → TransformedList (v :: vs) (w :: ws)

/-- Field-wise transformation of an object: a key bound to the absent
sentinel is dropped; every other key is rewritten to upper-camel-case
and its value transformed recursively, keeping field order. -/
inductive TransformedFields :
    List (String × Value) → List (String × Value) → Prop where
  | nil : TransformedFields [] []
  | drop {k : String} {rest rest' : List (String × Value)} :
      TransformedFields rest rest' →
      TransformedFields ((k, .absent) :: rest) rest'
  | keep {k : String} {v w : Value} {rest rest' : List (String × Value)} :
      v ≠ .absent → Transformed v w → TransformedFields rest rest' →
      TransformedFields ((k, v) :: rest) ((capitalizeFirst k, w) :: rest')
end

mutual
/-- The executable transform satisfies the spec relation. -/
theorem transformed_capitalize : ∀ v : Value, Transformed v (capitalizePropertyNames v)
  | .str s => .str s
  | .num n => .num n
  | .bool b => .bool b
  | .null => .null
  | .absent => .absent
  | .other t => .other t
  | .arr xs => .arr (transformedList_capitalize xs)
  | .obj kvs => .obj (transformedFields_capitalize kvs)

/-- Array elements are transformed element-wise by the executable
transform. -/
theorem transformedList_capitalize :
    ∀ xs : List Value, TransformedList xs (capitalizeList xs)
  | [] => .nil
  | x :: xs => .cons (transformed_capitalize x) (transformedList_capitalize xs)

/-- Object fields are transformed field-wise by the executable
transform. -/
theorem transformedFields_capitalize :
    ∀ kvs : List (String × Value), TransformedFields kvs (capitalizeFields kvs)
  | [] => .nil
  | (k, .absent) :: rest => .drop (transformedFields_capitalize rest)
  | (k, .str s) :: rest =>
    .keep (by simp) (transformed_capitalize (.str s)) (transformedFields_capitalize rest)
  | (k, .num n) :: rest =>
    .keep (by simp) (transformed_capitalize (.num n)) (transformedFields_capitalize rest)
  | (k, .bool b) :: rest =>
    .keep (by simp) (transformed_capitalize (.bool b)) (transformedFields_capitalize rest)
  | (k, .null) :: rest =>
    .keep (by simp) (transformed_capitalize .null) (transformedFields_capitalize rest)
  | (k, .other t) :: rest =>
    .keep (by simp) (transformed_capitalize (.other t)) (transformedFields_capitalize rest)
  | (k, .arr xs) :: rest =>
    .keep (by simp) (transformed_capitalize (.arr xs)) (transformedFields_capitalize rest)
  | (k, .obj kvs) :: rest =>
    .keep (by simp) (transformed_capitalize (.obj kvs)) (transformedFields_capitalize rest)
end

/-! ## Idempotence of the transform -/

mutual
/-- Running the transform on its own output changes nothing. -/
theorem capitalize_idem : ∀ v : Value,
    capitalizePropertyNames (capitalizePropertyNames v) = capitalizePropertyNames v
  | .str _ => rfl
  | .num _ => rfl
  | .bool _ => rfl
  | .null => rfl
  | .absent => rfl
  | .other _ => rfl
  | .arr xs => congrArg Value.arr (capitalizeList_idem xs)
  | .obj kvs => congrArg Value.obj (capitalizeFields_idem kvs)

/-- Array version of `capitalize_idem`. -/
theorem capitalizeList_idem : ∀ xs : List Value,
    capitalizeList (capitalizeList xs) = capitalizeList xs
  | [] => rfl
  | x :: xs => by
    show capitalizePropertyNames (capitalizePropertyNames x) :: capitalizeList (capitalizeList xs)
        = capitalizePropertyNames x :: capitalizeList xs
    rw [capitalize_idem x, capitalizeList_idem xs]

/-- Field version of `capitalize_idem`: no key of the output is bound
to the absent sentinel, so no field is dropped on the second pass, and
re-capitalizing an already-capitalized key changes nothing. -/
theorem capitalizeFields_idem : ∀ kvs : List (String × Value),
    capitalizeFields (capitalizeFields kvs) = capitalizeFields kvs
  | [] => rfl
  | (_, .absent) :: rest => capitalizeFields_idem rest
  | (k, .str s) :: rest => by
    show (capitalizeFirst (capitalizeFirst k), Value.str s) :: capitalizeFields (capitalizeFields rest)
        = (capitalizeFirst k, Value.str s) :: capitalizeFields rest
    rw [capitalizeFirst_idem, capitalizeFields_idem rest]
  | (k, .num n) :: rest => by
    show (capitalizeFirst (capitalizeFirst k), Value.num n) :: capitalizeFields (capitalizeFields rest)
        = (capitalizeFirst k, Value.num n) :: capitalizeFields rest
    rw [capitalizeFirst_idem, capitalizeFields_idem rest]
  | (k, .bool b) :: rest => by
    show (capitalizeFirst (capitalizeFirst k), Value.bool b) :: capitalizeFields (capitalizeFields rest)
        = (capitalizeFirst k, Value.bool b) :: capitalizeFields rest
    rw [capitalizeFirst_idem, capitalizeFields_idem rest]
  | (k, .null) :: rest => by
    show (capitalizeFirst (capitalizeFirst k), Value.null) :: capitalizeFields (capitalizeFields rest)
        = (capitalizeFirst k, Value.null) :: capitalizeFields rest
    rw [capitalizeFirst_idem, capitalizeFields_idem rest]
  | (k, .other t) :: rest => by
    show (capitalizeFirst (capitalizeFirst k), Value.other t) :: capitalizeFields (capitalizeFields rest)
        = (capitalizeFirst k, Value.other t) :: capitalizeFields rest
    rw [capitalizeFirst_idem, capitalizeFields_idem rest]
  | (k, .arr xs) :: rest => by
    show (capitalizeFirst (capitalizeFirst k), Value.arr (capitalizeList (capitalizeList xs)))
          :: capitalizeFields (capitalizeFields rest)
        = (capitalizeFirst k, Value.arr (capitalizeList xs)) :: capitalizeFields rest
    rw [capitalizeFirst_idem, capitalizeList_idem xs, capitalizeFields_idem rest]
  | (k, .obj kvs) :: rest => by
    show (capitalizeFirst (capitalizeFirst k), Value.obj (capitalizeFields (capitalizeFields kvs)))
          :: capitalizeFields (capitalizeFields rest)
        = (capitalizeFirst k, Value.obj (capitalizeFields kvs)) :: capitalizeFields rest
    rw [capitalizeFirst_idem, capitalizeFields_idem kvs, capitalizeFields_idem rest]
end

/-! ## No key of any output object is bound to the absent sentinel -/

mutual
/-- Checks that nowhere in the tree is an object key bound to the
absent sentinel. -/
def noAbsentBoundKey : Value → Bool
  | .obj kvs => noAbsentBoundKeyFields kvs
  | .arr xs => noAbsentBoundKeyList xs
  | _ => true

/-- Array version of `noAbsentBoundKey`. -/
def noAbsentBoundKeyList : List Value → Bool
  | [] => true
  | x :: xs => noAbsentBoundKey x && noAbsentBoundKeyList xs

/-- Field version of `noAbsentBoundKey`. -/
def noAbsentBoundKeyFields : List (String × Value) → Bool
  | [] => true
  | (_, .absent) :: _ => false
  | (_, v) :: rest => noAbsentBoundKey v && noAbsentBoundKeyFields rest
end

mutual
/-- The transform's output never binds an object key to the absent
sentinel, at any depth. -/
theorem noAbsentBoundKey_capitalize : ∀ v : Value,
    noAbsentBoundKey (capitalizePropertyNames v) = true
  | .str _ => rfl
  | .num _ => rfl
  | .bool _ => rfl
  | .null => rfl
  | .absent => rfl
  | .other _ => rfl
  | .arr xs => noAbsentBoundKeyList_capitalize xs
  | .obj kvs => noAbsentBoundKeyFields_capitalize kvs

/-- Array version of `noAbsentBoundKey_capitalize`. -/
theorem noAbsentBoundKeyList_capitalize : ∀ xs : List Value,
    noAbsentBoundKeyList (capitalizeList xs) = true
  | [] => rfl
  | x :: xs => by
    show (noAbsentBoundKey (capitalizePropertyNames x) && noAbsentBoundKeyList (capitalizeList xs)) = true
    rw [noAbsentBoundKey_capitalize x, noAbsentBoundKeyList_capitalize xs]
    rfl

/-- Field version of `noAbsentBoundKey_capitalize`. -/
theorem noAbsentBoundKeyFields_capitalize : ∀ kvs : List (String × Value),
    noAbsentBoundKeyFields (capitalizeFields kvs) = true
  | [] => rfl
  | (_, .absent) :: rest => noAbsentBoundKeyFields_capitalize rest
  | (_, .str _) :: rest => noAbsentBoundKeyFields_capitalize rest
  | (_, .num _) :: rest => noAbsentBoundKeyFields_capitalize rest
  | (_, .bool _) :: rest => noAbsentBoundKeyFields_capitalize rest
  | (_, .null) :: rest => noAbsentBoundKeyFields_capitalize rest
  | (_, .other _) :: rest => noAbsentBoundKeyFields_capitalize rest
  | (_, .arr xs) :: rest => by
    show (noAbsentBoundKeyList (capitalizeList xs) && noAbsentBoundKeyFields (capitalizeFields rest)) = true
    rw [noAbsentBoundKeyList_capitalize xs, noAbsentBoundKeyFields_capitalize rest]
    rfl
  | (_, .obj kvs) :: rest => by
    show (noAbsentBoundKeyFields (capitalizeFields kvs) && noAbsentBoundKeyFields (capitalizeFields rest)) = true
    rw [noAbsentBoundKeyFields_capitalize kvs, noAbsentBoundKeyFields_capitalize rest]
    rfl
end

/-! ## Shared helper lemmas -/

/-- `capitalizeList` is exactly an ordered map of the transform. -/
theorem capitalizeList_eq_map : ∀ xs : List Value,
    capitalizeList xs = xs.map capitalizePropertyNames
  | [] => rfl
  | x :: xs => by
    show capitalizePropertyNames x :: capitalizeList xs
        = capitalizePropertyNames x :: xs.map capitalizePropertyNames
    rw [capitalizeList_eq_map xs]

/-- Serializing a document yields the `Statement` wrapper key holding
the ordered array of the serialized statements. -/
theorem document_serialization (d : StackPolicyDocument) :
    capitalizePropertyNames d.toValue
      = .obj [("Statement",
          .arr (d.statement.map fun st => capitalizePropertyNames st.toValue))] := by
  show Value.obj [(capitalizeFirst "statement",
      .arr (capitalizeList (d.statement.map StackPolicyStatement.toValue)))] = _
  rw [capitalizeList_eq_map, List.map_map]
  rfl

/-- The optional `condition` field of a statement, whichever variant it
is. -/
def StackPolicyStatement.condition : StackPolicyStatement → Option Condition
  | .actionResource s => s.condition
  | .actionNotResource s => s.condition
  | .notActionResource s => s.condition
  | .notActionNotResource s => s.condition

/-- `_toCloudFormation` invoked repeatedly: every invocation leaves the
node untouched and returns the same value. -/
theorem runMany_spec : ∀ (n : Nat) (p : StackPolicy),
    StackPolicy.runMany n p = (List.replicate n p.toCloudFormation, p)
  | 0, _ => rfl
  | n + 1, p => by
    show (p.toCloudFormation :: (StackPolicy.runMany n p).1, (StackPolicy.runMany n p).2)
        = (List.replicate (n + 1) p.toCloudFormation, p)
    rw [runMany_spec n p]
    rfl

/-! ## The claims -/

/-- C1: the serializer output rewrites every key of every plain object
at every nesting depth from lower-camel-case to upper-camel-case and
rebuilds every array element-wise, recursively and in order — stated
as refinement of the relation `Transformed`, which transcribes the
spec's description of the transform; together with the spec's deep
nesting scenario (`condition`/`stringLike`/`resourceType`) evaluated
concretely. -/
theorem claim1_transform_capitalizes_every_key :
    (∀ v : Value, Transformed v (capitalizePropertyNames v)) ∧
    capitalizePropertyNames
        (.obj [("condition", .obj [("stringLike", .obj [("resourceType",
          .arr [.str "AWS::EC2::*", .str "AWS::RDS::*"])])])])
      = .obj [("Condition", .obj [("StringLike", .obj [("ResourceType",
          .arr [.str "AWS::EC2::*", .str "AWS::RDS::*"])])])] :=
  ⟨transformed_capitalize, rfl⟩

/-- The end-to-end scenario statement of the spec: effect `Deny`,
action `Update:Replace`, principal `*`, resource
`['MyBucket', 'MyTable']`, no condition. -/
def endToEndStatement : ActionResourceStatement :=
  { effect := .deny
    action := .single .replace
    resource := .list ["MyBucket", "MyTable"]
    condition := none }

/-- The policy node holding the single end-to-end scenario statement. -/
def endToEndPolicy : StackPolicy :=
  StackPolicy.ofProps { document := { statement := [.actionResource endToEndStatement] } }

/-- C2: `_toCloudFormation` on the one-statement document of the
end-to-end scenario returns exactly the expected wire object, the
`statement` wrapper key included. -/
theorem claim2_end_to_end_scenario :
    endToEndPolicy.toCloudFormation
      = .obj [("Statement", .arr [.obj
          [("Effect", .str "Deny"),
           ("Action", .str "Update:Replace"),
           ("Principal", .str "*"),
           ("Resource", .arr [.str "MyBucket", .str "MyTable"])]])] := rfl

/-- An attempted `ActionNotResourceStatement` object whose
`notResource` field holds an array of identifier strings instead of a
single string. -/
def notResourceArrayObject : Value :=
  .obj [("effect", .str "Deny"),
        ("action", .str "Update:*"),
        ("principal", .str "*"),
        ("notResource", .arr [.str "MyBucket", .str "MyTable"])]

/-- An attempted `NotActionNotResourceStatement` object whose
`notResource` field holds a one-element array of identifier strings. -/
def notResourceArrayObject2 : Value :=
  .obj [("effect", .str "Allow"),
        ("notAction", .str "Update:Replace"),
        ("principal", .str "*"),
        ("notResource", .arr [.str "MyBucket"])]

/-- C3 counterexample: `notResource` does not accept an ordered
sequence of identifier strings.  Its declared type is `string` (source
lines 113 and 177), so the shape predicates of both not-resource
statement variants reject an array-valued `notResource`, while the same
objects with a bare string are accepted. -/
theorem claim3_counterexample_notResource_rejects_array :
    isActionNotResourceStatementShape notResourceArrayObject = false ∧
    isNotActionNotResourceStatementShape notResourceArrayObject2 = false ∧
    isActionNotResourceStatementShape
      (.obj [("effect", .str "Deny"), ("action", .str "Update:*"),
             ("principal", .str "*"), ("notResource", .str "MyBucket")]) = true ∧
    isNotActionNotResourceStatementShape
      (.obj [("effect", .str "Allow"), ("notAction", .str "Update:Replace"),
             ("principal", .str "*"), ("notResource", .str "MyBucket")]) = true :=
  ⟨rfl, rfl, rfl, rfl⟩

/-- C3 (amended): `notResource` accepts only a single identifier
string, and the serializer preserves that string shape — the output
`NotResource` field is the same bare string, never promoted to an
array. -/
theorem claim3_notResource_single_string_preserved :
    (∀ st : ActionNotResourceStatement,
      getField (capitalizePropertyNames st.toValue) "NotResource"
        = some (.str st.notResource)) ∧
    (∀ st : NotActionNotResourceStatement,
      getField (capitalizePropertyNames st.toValue) "NotResource"
        = some (.str st.notResource)) := by
  constructor
  · intro st
    obtain ⟨e, a, nr, c⟩ := st
    cases a <;> rcases c with _ | cc <;> try cases cc
    all_goals simp [ActionNotResourceStatement.toValue, Action.toValue,
      conditionValue, Condition.toValue, capitalizePropertyNames, capitalizeFields,
      capitalizeFirst, getField, lookupField]
  · intro st
    obtain ⟨e, na, nr, c⟩ := st
    rcases c with _ | cc <;> try cases cc
    all_goals simp [NotActionNotResourceStatement.toValue, conditionValue,
      Condition.toValue, capitalizePropertyNames, capitalizeFields,
      capitalizeFirst, getField, lookupField]

/-- An attempted statement object carrying the invalid effect literal
`allow` (wrong case). -/
def badEffectObject : Value :=
  .obj [("effect", .str "allow"),
        ("action", .str "Update:*"),
        ("principal", .str "*"),
        ("resource", .str "MyBucket")]

/-- C4: any effect value other than the literals `Allow` and `Deny` is
rejected at document-build time: it is not a member of the `Effect`
type, every statement shape carrying it is refused by the schema, and
the typed document model — the only thing the serializer ever
receives — cannot hold it, so the invalid value is never coerced and
never reaches serialization. -/
theorem claim4_invalid_effect_rejected_at_construction :
    ∀ s : String, s ≠ "Allow" → s ≠ "Deny" →
      isEffectString s = false ∧
      (∀ v : Value, getField v "effect" = some (.str s) →
        isStackPolicyStatementShape v = false) ∧
      (∀ e : Effect, e.render ≠ s) := by
  intro s h1 h2
  have he : isEffectString s = false := by simp [isEffectString, h1, h2]
  refine ⟨he, ?_, ?_⟩
  · intro v hv
    simp [isStackPolicyStatementShape, isActionNotResourceStatementShape,
      isActionResourceStatementShape, isNotActionNotResourceStatementShape,
      isNotActionResourceStatementShape, hv, he]
  · intro e
    cases e with
    | allow => exact fun hc => h1 hc.symm
    | deny => exact fun hc => h2 hc.symm

/-- C4 witness: the miscased literal `allow` is rejected everywhere a
document build could carry it. -/
theorem claim4_witness :
    isEffectString "allow" = false ∧
    isStackPolicyStatementShape badEffectObject = false ∧
    (∀ e : Effect, e.render ≠ "allow") := by
  obtain ⟨h1, h2, h3⟩ :=
    claim4_invalid_effect_rejected_at_construction "allow" (by decide) (by decide)
  exact ⟨h1, h2 badEffectObject rfl, h3⟩

/-- C5: the serialized output preserves the shape of the `resource`
field exactly: a single string stays a single string (never a
one-element array) and an array of N strings stays an array of those N
strings in the original order, in both statement variants carrying
`resource`; and the document output's `Statement` array holds the
statements' serialized forms in order. -/
theorem claim5_resource_shape_preserved :
    (∀ p : StackPolicy,
      getField p.toCloudFormation "Statement"
        = some (.arr (p.document.statement.map fun st =>
            capitalizePropertyNames st.toValue))) ∧
    (∀ st : ActionResourceStatement, ∀ s : String, st.resource = .single s →
      getField (capitalizePropertyNames st.toValue) "Resource" = some (.str s)) ∧
    (∀ st : ActionResourceStatement, ∀ l : List String, st.resource = .list l →
      getField (capitalizePropertyNames st.toValue) "Resource"
          = some (.arr (l.map Value.str))
        ∧ (l.map Value.str).length = l.length) ∧
    (∀ st : NotActionResourceStatement, ∀ s : String, st.resource = .single s →
      getField (capitalizePropertyNames st.toValue) "Resource" = some (.str s)) ∧
    (∀ st : NotActionResourceStatement, ∀ l : List String, st.resource = .list l →
      getField (capitalizePropertyNames st.toValue) "Resource"
          = some (.arr (l.map Value.str))
        ∧ (l.map Value.str).length = l.length) := by
  refine ⟨?_, ?_, ?_, ?_, ?_⟩
  · intro p
    simp [StackPolicy.toCloudFormation, document_serialization, getField, lookupField]
  · intro st s h
    obtain ⟨e, a, r, c⟩ := st
    simp at h
    subst h
    cases a <;> rcases c with _ | cc <;> try cases cc
    all_goals simp [ActionResourceStatement.toValue, Action.toValue,
      ResourceSpec.toValue, conditionValue, Condition.toValue,
      capitalizePropertyNames, capitalizeFields, capitalizeFirst, getField, lookupField]
  · intro st l h
    obtain ⟨e, a, r, c⟩ := st
    simp at h
    subst h
    refine ⟨?_, by simp⟩
    cases a <;> rcases c with _ | cc <;> try cases cc
    all_goals simp [ActionResourceStatement.toValue, Action.toValue,
      ResourceSpec.toValue, conditionValue, Condition.toValue, capitalizeList_eq_map,
      capitalizePropertyNames, capitalizeFields, capitalizeFirst, getField, lookupField]
  · intro st s h
    obtain ⟨e, na, r, c⟩ := st
    simp at h
    subst h
    rcases c with _ | cc <;> try cases cc
    all_goals simp [NotActionResourceStatement.toValue,
      ResourceSpec.toValue, conditionValue, Condition.toValue,
      capitalizePropertyNames, capitalizeFields, capitalizeFirst, getField, lookupField]
  · intro st l h
    obtain ⟨e, na, r, c⟩ := st
    simp at h
    subst h
    refine ⟨?_, by simp⟩
    rcases c with _ | cc <;> try cases cc
    all_goals simp [NotActionResourceStatement.toValue,
      ResourceSpec.toValue, conditionValue, Condition.toValue, capitalizeList_eq_map,
      capitalizePropertyNames, capitalizeFields, capitalizeFirst, getField, lookupField]

/-- A statement whose `resource` is the single string `MyBucket`. -/
def resourceSingleStatement : ActionResourceStatement :=
  { effect := .allow
    action := .single .modify
    resource := .single "MyBucket"
    condition := none }

/-- A statement whose `resource` is a three-element array of strings,
with an action list and a condition present. -/
def resourceListStatement : ActionResourceStatement :=
  { effect := .deny
    action := .list [.modify, .delete]
    resource := .list ["A", "B", "C"]
    condition := some (.stringEquals ⟨["AWS::EC2::Instance"]⟩) }

/-- C5 witness: shape preservation observed on a single-string resource
and on a three-string array resource. -/
theorem claim5_witness :
    (getField (capitalizePropertyNames resourceSingleStatement.toValue) "Resource"
      = some (.str "MyBucket")) ∧
    (getField (capitalizePropertyNames resourceListStatement.toValue) "Resource"
        = some (.arr (["A", "B", "C"].map Value.str))
      ∧ ((["A", "B", "C"] : List String).map Value.str).length
          = (["A", "B", "C"] : List String).length) :=
  ⟨claim5_resource_shape_preserved.2.1 resourceSingleStatement "MyBucket" rfl,
   claim5_resource_shape_preserved.2.2.1 resourceListStatement ["A", "B", "C"] rfl⟩

/-- C6: a statement built without a `condition` serializes to an object
with no `Condition` key at all, in every statement variant; and, in
general, no object key anywhere in any output of the transform is bound
to the absent sentinel. -/
theorem claim6_absent_condition_key_omitted :
    (∀ st : StackPolicyStatement, st.condition = none →
      getField (capitalizePropertyNames st.toValue) "Condition" = none) ∧
    (∀ v : Value, noAbsentBoundKey (capitalizePropertyNames v) = true) := by
  refine ⟨?_, noAbsentBoundKey_capitalize⟩
  intro st h
  cases st with
  | actionResource s =>
    obtain ⟨e, a, r, c⟩ := s
    simp [StackPolicyStatement.condition] at h
    subst h
    cases a <;> cases r
    all_goals simp [StackPolicyStatement.toValue, ActionResourceStatement.toValue,
      Action.toValue, ResourceSpec.toValue, conditionValue,
      capitalizePropertyNames, capitalizeFields, capitalizeFirst, getField, lookupField]
  | actionNotResource s =>
    obtain ⟨e, a, nr, c⟩ := s
    simp [StackPolicyStatement.condition] at h
    subst h
    cases a
    all_goals simp [StackPolicyStatement.toValue, ActionNotResourceStatement.toValue,
      Action.toValue, conditionValue,
      capitalizePropertyNames, capitalizeFields, capitalizeFirst, getField, lookupField]
  | notActionResource s =>
    obtain ⟨e, na, r, c⟩ := s
    simp [StackPolicyStatement.condition] at h
    subst h
    cases r
    all_goals simp [StackPolicyStatement.toValue, NotActionResourceStatement.toValue,
      ResourceSpec.toValue, conditionValue,
      capitalizePropertyNames, capitalizeFields, capitalizeFirst, getField, lookupField]
  | notActionNotResource s =>
    obtain ⟨e, na, nr, c⟩ := s
    simp [StackPolicyStatement.condition] at h
    subst h
    simp [StackPolicyStatement.toValue, NotActionNotResourceStatement.toValue,
      conditionValue,
      capitalizePropertyNames, capitalizeFields, capitalizeFirst, getField, lookupField]

/-- C6 witness: the end-to-end statement has no condition, and its
serialized object has no `Condition` key. -/
theorem claim6_witness :
    getField (capitalizePropertyNames
        (StackPolicyStatement.actionResource endToEndStatement).toValue) "Condition"
      = none :=
  claim6_absent_condition_key_omitted.1 (.actionResource endToEndStatement) rfl

/-- C7: the transform is total — it is a function defined on every
`Value` — and scalars (strings, numbers, booleans, null) as well as
opaque values outside the JSON-serializable set pass through unchanged,
also in nested positions. -/
theorem claim7_scalars_pass_through :
    (∀ s : String, capitalizePropertyNames (.str s) = .str s) ∧
    (∀ n : Int, capitalizePropertyNames (.num n) = .num n) ∧
    (∀ b : Bool, capitalizePropertyNames (.bool b) = .bool b) ∧
    capitalizePropertyNames .null = .null ∧
    (∀ t : String, capitalizePropertyNames (.other t) = .other t) ∧
    capitalizePropertyNames (.obj [("token", .other "UnresolvedToken")])
      = .obj [("Token", .other "UnresolvedToken")] :=
  ⟨fun _ => rfl, fun _ => rfl, fun _ => rfl, rfl, fun _ => rfl, rfl⟩

/-- C8: the transform is idempotent — applying it to its own output is
a no-op — and a key whose first character is not a lowercase ASCII
letter is left exactly as it is, so PascalCase keys are never
double-transformed. -/
theorem claim8_transform_idempotent :
    (∀ v : Value,
      capitalizePropertyNames (capitalizePropertyNames v) = capitalizePropertyNames v) ∧
    (∀ (k : String) (c : Char) (cs : List Char), k.data = c :: cs →
      ¬(97 ≤ c.toNat ∧ c.toNat ≤ 122) → capitalizeFirst k = k) := by
  refine ⟨capitalize_idem, ?_⟩
  intro k c cs hk hc
  obtain ⟨data⟩ := k
  simp only [String.data] at hk
  subst hk
  show String.mk (c.toUpper :: cs) = String.mk (c :: cs)
  rw [char_toUpper_eq, if_neg hc]

/-- C8 witness: a second pass over an already-serialized tree changes
nothing, and the PascalCase multi-word key `StringEquals` is left
untouched. -/
theorem claim8_witness :
    capitalizePropertyNames (capitalizePropertyNames
        (.obj [("statement", .arr [.obj [("stringEquals", .null)]])]))
      = capitalizePropertyNames (.obj [("statement", .arr [.obj [("stringEquals", .null)]])]) ∧
    capitalizeFirst "StringEquals" = "StringEquals" :=
  ⟨claim8_transform_idempotent.1 _,
   claim8_transform_idempotent.2 "StringEquals" 'S' "tringEquals".data rfl (by decide)⟩

/-- C9: invoking `_toCloudFormation` any number of times never mutates
the stored document: the node (and with it the document supplied at
construction) is unchanged after every invocation, and every invocation
returns the same freshly computed value. -/
theorem claim9_serialization_never_mutates :
    ∀ (p : StackPolicy) (n : Nat),
      (StackPolicy.runMany n p).2 = p ∧
      (StackPolicy.runMany n p).2.document = p.document ∧
      (StackPolicy.runMany n p).1 = List.replicate n p.toCloudFormation := by
  intro p n
  rw [runMany_spec]
  exact ⟨rfl, rfl, rfl⟩

/-- C10: the constructor stores the caller's document exactly as
supplied — no copy, no transformation, no validation — and that stored
document stays equal to the supplied one across any number of
subsequent serializations. -/
theorem claim10_constructor_stores_document :
    ∀ (props : StackPolicyProps) (n : Nat),
      (StackPolicy.ofProps props).document = props.document ∧
      (StackPolicy.runMany n (StackPolicy.ofProps props)).2.document = props.document := by
  intro props n
  rw [runMany_spec]
  exact ⟨rfl, rfl⟩

end StackPolicyModel
